import Mathlib

/-!
# Verification of the TradingBotMicha signal/risk/execution engine

Shallow embedding of the two Python sources (`src/bot.py`, `src/main.py`)
of the trading bot.  Real arithmetic of the source is modelled exactly over
`ℚ`; pandas `NaN` cells are modelled as `Option` values whose comparisons
are `false` (exactly the float `NaN` comparison semantics the code relies
on); the unreliable remote API is modelled as an oracle giving the outcome
of each attempt.  Values produced by the external `ta` indicator library
that the claims never constrain (RSI, Bollinger bands, the latest ATR) are
passed as oracle parameters to the functions that consume them, mirroring
how the code reads `atr.iloc[-1]`, `last_row['bb_lower']`, etc.
-/

/-! ## Resilient invoker: `safe_api_call` (bot.py 22-34, main.py 40-52) -/

/-- Outcome of a `safe_api_call` run: the returned value or the raised
"Error persistente después de {max_retries} intentos." (whose payload is
`max_retries`), together with how many attempts were made and how many
`time.sleep(delay)` calls were performed. -/
structure CallOutcome (α : Type) where
  result : Except ℕ α
  attempts : ℕ
  sleeps : ℕ
  deriving Repr

/-- The `while retries < max_retries` loop of `safe_api_call`.  `call r`
is the outcome of the attempt made when `retries == r` (`some v`: the call
returns `v`; `none`: it raises).  `gas` is `max_retries - retries`, the
number of loop iterations still allowed, so the loop guard
`retries < max_retries` is exactly `gas > 0`.  Each failed attempt logs,
increments `retries` and sleeps once; falling out of the loop raises the
persistent-error exception carrying `max_retries`. -/
def safeApiCallGo (call : ℕ → Option α) (maxRetries : ℕ) :
    ℕ → ℕ → ℕ → CallOutcome α
  | 0, retries, sleeps => ⟨Except.error maxRetries, retries, sleeps⟩
  | gas + 1, retries, sleeps =>
    match call retries with
    | some v => ⟨Except.ok v, retries + 1, sleeps⟩
    | none => safeApiCallGo call maxRetries gas (retries + 1) (sleeps + 1)

/-- `safe_api_call(call, max_retries)`: run the retry loop starting from
`retries = 0` with no sleeps performed yet. -/
def safe_api_call (call : ℕ → Option α) (maxRetries : ℕ) : CallOutcome α :=
  safeApiCallGo call maxRetries maxRetries 0 0

/-! ## Stop-loss computations -/

/-- The inline stop-loss of `execute_trades` (bot.py 132-136):
`stop = purchase*(1-STOP_LOSS_PERCENTAGE)`, and when
`current > purchase*(1+TRAILING_STOP_LOSS_BUFFER)` it is ratcheted to
`max(stop, current*(1-TRAILING_STOP_LOSS_BUFFER))`, with
`STOP_LOSS_PERCENTAGE = 0.05` and `TRAILING_STOP_LOSS_BUFFER = 0.01`. -/
def baselineStopLoss (purchase current : ℚ) : ℚ :=
  let stop := purchase * (1 - 5/100)
  if current > purchase * (1 + 1/100) then max stop (current * (1 - 1/100))
  else stop

/-- `calculate_trailing_stop_loss` (main.py 122-129).  `atrLast` is
`atr.iloc[-1]`, the latest value of the `ta` library's 14-period average
true range over the fetched data;
`trailing_buffer = max(TRAILING_STOP_LOSS_BUFFER_BASE, atr.iloc[-1]/100)`
with `TRAILING_STOP_LOSS_BUFFER_BASE = 0.01`, and
`stop = max(purchase*(1-STOP_LOSS_PERCENTAGE), current*(1-trailing_buffer))`
with `STOP_LOSS_PERCENTAGE = 0.05`. -/
def calculate_trailing_stop_loss (purchase current atrLast : ℚ) : ℚ :=
  let trailing_buffer := max (1/100) (atrLast / 100)
  max (purchase * (1 - 5/100)) (current * (1 - trailing_buffer))

/-! ## Account state queries -/

/-- `get_purchase_price` (bot.py 105-110, main.py 141-146): the fill price
of the most recent own trade, `float(trades[-1]['price']) if trades else 0`.
`trades` is the (successfully fetched) list of own-trade prices, oldest
first. -/
def get_purchase_price (trades : List ℚ) : ℚ :=
  (trades.getLast?).getD 0

/-- `get_current_quantity` (bot.py 95-103, main.py 131-139): the free
balance of the asset, with a bare `except: return 0` around the whole
fetch-and-parse.  `balanceFetch` is the outcome of
`float(safe_api_call(client.get_asset_balance, ...)['free'])`: `ok q`
when it produces `q`, `error e` when anything in it raises. -/
def get_current_quantity (balanceFetch : Except ℕ ℚ) : ℚ :=
  match balanceFetch with
  | Except.ok q => q
  | Except.error _ => 0

/-! ## Order sizing -/

/-- `calculate_trade_qty` (bot.py 112-118): a fraction of the free USDT
balance divided by the current price — no step-size quantisation at all:
`(float(balance['free']) * percentage) / current_price`. -/
def calculate_trade_qty_bot (balanceFree percentage currentPrice : ℚ) : ℚ :=
  balanceFree * percentage / currentPrice

/-- Python's `%` on rationals (for a positive modulus):
`x % y = x - y*floor(x/y)`. -/
def pyMod (x y : ℚ) : ℚ := x - y * ⌊x / y⌋

/-- Python's `round` to an integer: round half to even. -/
def roundHalfEven (x : ℚ) : ℤ :=
  let n := ⌊x⌋
  let r := x - n
  if r < 1/2 then n
  else if 1/2 < r then n + 1
  else if 2 ∣ n then n else n + 1

/-- Python's `round(x, 8)`: round half to even at the 8th decimal. -/
def round8 (x : ℚ) : ℚ := (roundHalfEven (x * 10^8) : ℚ) / 10^8

/-- `calculate_trade_qty` (main.py 148-155): a fixed notional amount
divided by price, floored to the venue's quantity step and rounded to 8
decimals: `round(trade_qty - (trade_qty % float(step_size)), 8)`. -/
def calculate_trade_qty_main (fixedAmount price step : ℚ) : ℚ :=
  let trade_qty := fixedAmount / price
  round8 (trade_qty - pyMod trade_qty step)

/-! ## Execution step -/

/-- A market order sent to the venue. -/
inductive Order where
  | buy (qty : ℚ)
  | sell (qty : ℚ)
  deriving Repr, DecidableEq

/-- Comparison against a possibly-NaN value, as pandas/NumPy floats behave:
`nanGt a b` is `a > b`, and any comparison involving NaN (`none`) is
`false`. -/
def nanGt : Option ℚ → Option ℚ → Bool
  | some a, some b => decide (b < a)
  | _, _ => false

/-- `nanLt a b` is `a < b` with NaN comparisons `false`. -/
def nanLt : Option ℚ → Option ℚ → Bool
  | some a, some b => decide (a < b)
  | _, _ => false

/-- `execute_trades` (bot.py 120-150) as a function of the data it reads,
returning the list of market orders it places this cycle.
`lastPosition` is `last_row['position']` (`none` when that diff cell is
NaN), `currentQty` the result of `get_current_quantity`, `purchase` the
result of `get_purchase_price` (only read in the `current_qty > 0`
branch), `tradeQty` the result of `calculate_trade_qty` (only computed in
the buy branch).  The stop-loss branch sells everything and `return`s
before the signal conditions are looked at. -/
def execute_trades (lastPosition : Option ℤ)
    (currentPrice currentQty purchase tradeQty : ℚ) : List Order :=
  if 0 < currentQty ∧ currentPrice ≤ baselineStopLoss purchase currentPrice then
    [Order.sell currentQty]
  else if lastPosition = some 1 ∧ currentQty = 0 then
    [Order.buy tradeQty]
  else if lastPosition = some (-1) ∧ 0 < currentQty then
    [Order.sell currentQty]
  else []

/-- `execute_advanced_trades` (main.py 157-184).  Additionally to the
baseline inputs: `atrLast` feeds `calculate_trailing_stop_loss`, and
`bbLower`/`bbUpper` are `last_row['bb_lower']` / `last_row['bb_upper']`
(the `ta` Bollinger bands, NaN = `none` on early rows).  A buy also
requires `current_price < last_row['bb_lower']`, a signal sell also
requires `current_price > last_row['bb_upper']`. -/
def execute_advanced_trades (lastPosition : Option ℤ)
    (currentPrice currentQty purchase atrLast : ℚ)
    (bbLower bbUpper : Option ℚ) (tradeQty : ℚ) : List Order :=
  if 0 < currentQty ∧
      currentPrice ≤ calculate_trailing_stop_loss purchase currentPrice atrLast then
    [Order.sell currentQty]
  else if lastPosition = some 1 ∧ currentQty = 0 ∧
      nanLt (some currentPrice) bbLower = true then
    [Order.buy tradeQty]
  else if lastPosition = some (-1) ∧ 0 < currentQty ∧
      nanGt (some currentPrice) bbUpper = true then
    [Order.sell currentQty]
  else []

/-! ## Signal engine -/

/-- The `ta` library's `SMAIndicator(close, window).sma_indicator()` at
row `i` of the close series: `close.rolling(window, min_periods=window)
.mean()`, i.e. the mean of `closes[i+1-w .. i]` once at least `w` closes
are available at row `i`, and NaN (`none`) before that. -/
def smaAt (closes : List ℚ) (w i : ℕ) : Option ℚ :=
  if w ≤ i + 1 ∧ i < closes.length then
    some ((((closes.drop (i + 1 - w)).take w).sum) / w)
  else none

/-- The `signal` column of `apply_sma_strategy` (bot.py 80-93) at row `i`:
rows before label `SMA_SHORT = 50` keep the initialised `0`; from row 50
on, `(SMA_short > SMA_long).astype(int)`, where a comparison against a
NaN SMA cell is `False`.  `SMA_LONG = 200`. -/
def sma_signal (closes : List ℚ) (i : ℕ) : ℤ :=
  if 50 ≤ i ∧ nanGt (smaAt closes 50 i) (smaAt closes 200 i) = true then 1
  else 0

/-- The `position` column `data['signal'].diff()` of `apply_sma_strategy`
at row `i`: NaN (`none`) at row 0, `signal[i] - signal[i-1]` after. -/
def sma_position (closes : List ℚ) (i : ℕ) : Option ℤ :=
  if i = 0 then none
  else some (sma_signal closes i - sma_signal closes (i - 1))

/-- The `signal` column of `apply_advanced_strategy` (main.py 98-120) at
row `i`: `1` where `SMA_short > SMA_long` and `RSI < RSI_THRESHOLD_BUY
(30)`, `-1` where `SMA_short < SMA_long` and `RSI > RSI_THRESHOLD_SELL
(70)`, else `0` — NaN comparisons `False`.  `rsi i` is the `ta` library's
`RSIIndicator(close, 14).rsi()` at row `i` (`none` on its NaN rows),
passed as an oracle because no claim constrains its value. -/
def advanced_signal (closes : List ℚ) (rsi : ℕ → Option ℚ) (i : ℕ) : ℤ :=
  if nanGt (smaAt closes 50 i) (smaAt closes 200 i) = true ∧
      nanLt (rsi i) (some 30) = true then 1
  else if nanLt (smaAt closes 50 i) (smaAt closes 200 i) = true ∧
      nanGt (rsi i) (some 70) = true then -1
  else 0

/-- The `position` column `data['signal'].diff()` of
`apply_advanced_strategy` at row `i`. -/
def advanced_position (closes : List ℚ) (rsi : ℕ → Option ℚ) (i : ℕ) :
    Option ℤ :=
  if i = 0 then none
  else some (advanced_signal closes rsi i - advanced_signal closes rsi (i - 1))

/-! ## Backtest simulator (bot.py 152-176) -/

/-- One iteration of the `for index, row in data.iterrows()` loop of
`backtest_sma_strategy`, on the state `(balance, trade_qty)`: on
`position == 1` with `trade_qty == 0`, buy with the whole balance at the
row's close (the `balance` variable itself is not debited); on
`position == -1` with `trade_qty > 0`, sell everything, setting
`balance = trade_qty * close`. -/
def backtestStep (closes : List ℚ) (st : ℚ × ℚ) (i : ℕ) : ℚ × ℚ :=
  let current_price := closes.getD i 0
  if sma_position closes i = some 1 ∧ st.2 = 0 then
    (st.1, st.1 / current_price)
  else if sma_position closes i = some (-1) ∧ 0 < st.2 then
    (st.2 * current_price, 0)
  else st

/-- `backtest_sma_strategy`: run the loop over every row from
`(balance, trade_qty) = (10000, 0)` and report
`profit = balance - initial_balance`. -/
def backtest_sma_strategy (closes : List ℚ) : ℚ :=
  let final := (List.range closes.length).foldl (backtestStep closes) (10000, 0)
  final.1 - 10000

/-- The scenario series of §8: 250 closes rising linearly from 100 to
350, `close_i = 100 + i * 250/249`. -/
def linSeries : List ℚ :=
  (List.range 250).map (fun i : ℕ => 100 + (i : ℚ) * 250 / 249)

/-! ## Helper lemmas -/

/-- Unrolling the retry loop when attempts `retries, …, k-1` fail and
attempt `k` succeeds within the remaining `gas` iterations. -/
lemma safeApiCallGo_success {α : Type} (call : ℕ → Option α) (M : ℕ) :
    ∀ (gas retries sleeps k : ℕ) (v : α), retries ≤ k → k < retries + gas →
      (∀ i, retries ≤ i → i < k → call i = none) → call k = some v →
      safeApiCallGo call M gas retries sleeps =
        ⟨Except.ok v, k + 1, sleeps + (k - retries)⟩ := by
  intro gas
  induction gas with
  | zero => intro retries sleeps k v hle hlt _ _; omega
  | succ g ih =>
    intro retries sleeps k v hle hlt hfail hsucc
    rcases Nat.eq_or_lt_of_le hle with heq | hlt2
    · subst heq
      simp [safeApiCallGo, hsucc]
    · have hnone : call retries = none := hfail retries le_rfl hlt2
      have : safeApiCallGo call M (g + 1) retries sleeps =
          safeApiCallGo call M g (retries + 1) (sleeps + 1) := by
        simp [safeApiCallGo, hnone]
      rw [this, ih (retries + 1) (sleeps + 1) k v hlt2 (by omega)
        (fun i hi hik => hfail i (by omega) hik) hsucc]
      have harith : sleeps + 1 + (k - (retries + 1)) = sleeps + (k - retries) := by
        omega
      rw [harith]

/-- Unrolling the retry loop when every attempt in the remaining `gas`
iterations fails. -/
lemma safeApiCallGo_exhaust {α : Type} (call : ℕ → Option α) (M : ℕ) :
    ∀ (gas retries sleeps : ℕ),
      (∀ i, retries ≤ i → i < retries + gas → call i = none) →
      safeApiCallGo call M gas retries sleeps =
        ⟨Except.error M, retries + gas, sleeps + gas⟩ := by
  intro gas
  induction gas with
  | zero => intro retries sleeps _; simp [safeApiCallGo]
  | succ g ih =>
    intro retries sleeps hfail
    have hnone : call retries = none := hfail retries le_rfl (by omega)
    have : safeApiCallGo call M (g + 1) retries sleeps =
        safeApiCallGo call M g (retries + 1) (sleeps + 1) := by
      simp [safeApiCallGo, hnone]
    rw [this, ih (retries + 1) (sleeps + 1)
      (fun i hi hik => hfail i (by omega) (by omega))]
    have h1 : retries + 1 + g = retries + (g + 1) := by omega
    have h2 : sleeps + 1 + g = sleeps + (g + 1) := by omega
    rw [h1, h2]

/-- Rounding an integer-valued rational is the identity. -/
lemma roundHalfEven_intCast (n : ℤ) : roundHalfEven (n : ℚ) = n := by
  simp [roundHalfEven, Int.floor_intCast]

/-! ## Claim theorems -/

/-- **C2.** For every operation and every `max_retries ≥ 1`: if the
operation fails exactly `k < max_retries` times and then succeeds,
`safe_api_call` returns the success value having made `k+1` attempts and
exactly `k` sleeps; if the operation fails on every attempt,
`safe_api_call` makes exactly `max_retries` attempts and then raises the
persistent error carrying the attempt count `max_retries`. -/
theorem safe_api_call_spec {α : Type} (call : ℕ → Option α) (maxRetries : ℕ)
    (hM : 1 ≤ maxRetries) :
    (∀ (k : ℕ) (v : α), k < maxRetries → (∀ i, i < k → call i = none) →
      call k = some v →
      safe_api_call call maxRetries = ⟨Except.ok v, k + 1, k⟩) ∧
    ((∀ i, i < maxRetries → call i = none) →
      safe_api_call call maxRetries =
        ⟨Except.error maxRetries, maxRetries, maxRetries⟩) := by
  constructor
  · intro k v hk hfail hsucc
    rw [safe_api_call,
      safeApiCallGo_success call maxRetries maxRetries 0 0 k v (Nat.zero_le k)
        (by omega) (fun i _ hik => hfail i hik) hsucc]
    simp
  · intro hfail
    rw [safe_api_call,
      safeApiCallGo_exhaust call maxRetries maxRetries 0 0
        (fun i _ hi => hfail i (by omega))]
    simp

/-- Witness for C2 at a concrete operation: failing twice then returning
`7`, with `max_retries = 5`, yields `ok 7` after 3 attempts and 2 sleeps;
always failing yields the persistent error after 5 attempts. -/
theorem safe_api_call_spec_witness :
    safe_api_call (fun i => if i = 2 then some 7 else none) 5 =
      ⟨Except.ok 7, 3, 2⟩ ∧
    safe_api_call (fun _ => (none : Option ℕ)) 5 =
      ⟨Except.error 5, 5, 5⟩ := by
  constructor
  · exact (safe_api_call_spec (fun i => if i = 2 then some 7 else none) 5
      (by norm_num)).1 2 7 (by norm_num) (by decide) (by decide)
  · exact (safe_api_call_spec (fun _ => (none : Option ℕ)) 5
      (by norm_num)).2 (fun i _ => rfl)

/-- **C9.** Querying the entry price of a symbol with no own trades
returns the defined value 0 (total function, nothing is raised);
when the trade list is non-empty it returns the most recent trade's
fill price. -/
theorem get_purchase_price_spec :
    get_purchase_price ([] : List ℚ) = 0 ∧
    ∀ (ps : List ℚ) (p : ℚ), get_purchase_price (ps ++ [p]) = p := by
  constructor
  · rfl
  · intro ps p
    simp [get_purchase_price]

/-- **C10.** `get_current_quantity` returns 0 whenever the balance query
raises any exception — in particular the persistent-retries error after
every attempt fails — and with that 0 quantity the execution step skips
the stop-loss and signal-exit paths entirely, emitting a buy exactly on
an Enter transition. -/
theorem get_current_quantity_failure_flat (call : ℕ → Option ℚ)
    (maxRetries : ℕ) (hfail : ∀ i, i < maxRetries → call i = none) :
    get_current_quantity (safe_api_call call maxRetries).result = 0 ∧
    (∀ e : ℕ, get_current_quantity (Except.error e) = 0) ∧
    (∀ (pos : Option ℤ) (price purchase tradeQty : ℚ),
      execute_trades pos price
          (get_current_quantity (safe_api_call call maxRetries).result)
          purchase tradeQty =
        if pos = some 1 then [Order.buy tradeQty] else []) := by
  have hq : get_current_quantity (safe_api_call call maxRetries).result = 0 := by
    rw [safe_api_call, safeApiCallGo_exhaust call maxRetries maxRetries 0 0
      (fun i _ hi => hfail i (by omega))]
    rfl
  refine ⟨hq, fun e => rfl, ?_⟩
  intro pos price purchase tradeQty
  rw [hq]
  by_cases hp : pos = some 1
  · simp [execute_trades, hp]
  · simp [execute_trades, hp]

/-- Witness for C10: with every balance-query attempt failing, the read
quantity is 0 and an Enter transition still produces a buy. -/
theorem get_current_quantity_failure_flat_witness :
    get_current_quantity (safe_api_call (fun _ => (none : Option ℚ)) 5).result
      = 0 ∧
    execute_trades (some 1) 90
        (get_current_quantity
          (safe_api_call (fun _ => (none : Option ℚ)) 5).result) 100 7 =
      [Order.buy 7] := by
  have h := get_current_quantity_failure_flat (fun _ => (none : Option ℚ)) 5
    (fun i _ => rfl)
  refine ⟨h.1, ?_⟩
  rw [h.2.2 (some 1) 90 100 7]
  rfl

/-- **C6.** When the position is Long (`current_qty > 0`) and the current
price is at or below the computed stop-loss price, the execution step
sells the full quantity and returns — regardless of the signal transition,
i.e. the stop check precedes and pre-empts the signal-based exit — in both
variants.  In the scenario entry 100, stop 5%, buffer 1% (latest ATR 1),
price 90, the stop price is 95 ≥ 90. -/
theorem stop_loss_precedence (pos : Option ℤ)
    (price qty purchase tradeQty atrLast : ℚ)
    (bbLower bbUpper : Option ℚ) (hq : 0 < qty) :
    (price ≤ baselineStopLoss purchase price →
      execute_trades pos price qty purchase tradeQty = [Order.sell qty]) ∧
    (price ≤ calculate_trailing_stop_loss purchase price atrLast →
      execute_advanced_trades pos price qty purchase atrLast bbLower bbUpper
        tradeQty = [Order.sell qty]) ∧
    baselineStopLoss 100 90 = 95 ∧
    calculate_trailing_stop_loss 100 90 1 = 95 ∧ (90 : ℚ) ≤ 95 := by
  refine ⟨?_, ?_, ?_, ?_, by norm_num⟩
  · intro h
    simp only [execute_trades]
    rw [if_pos ⟨hq, h⟩]
  · intro h
    simp only [execute_advanced_trades]
    rw [if_pos ⟨hq, h⟩]
  · norm_num [baselineStopLoss]
  · norm_num [calculate_trailing_stop_loss, max_def]

/-- Witness for C6: the spec's scenario, with an Enter transition pending,
still sells everything on the stop-loss breach in both variants. -/
theorem stop_loss_precedence_witness :
    execute_trades (some 1) 90 2 100 7 = [Order.sell 2] ∧
    execute_advanced_trades (some 1) 90 2 100 1 none none 7 =
      [Order.sell 2] := by
  have h := stop_loss_precedence (some 1) 90 2 100 7 1 none none (by norm_num)
  exact ⟨h.1 (by rw [h.2.2.1]; norm_num), h.2.1 (by rw [h.2.2.2.1]; norm_num)⟩

/-- **C1 (amended).** For an open Long position the baseline stop-loss
price is monotonically non-decreasing in the current price,
unconditionally.  The advanced stop is monotonically non-decreasing
across two cycles with non-negative entry and prices provided the
volatility buffer `max(0.01, latest ATR/100)` does not increase between
the cycles; when the latest ATR rises, the advanced stop can drop (see
the counterexample). -/
theorem trailing_stop_monotone :
    (∀ purchase c1 c2 : ℚ, c1 ≤ c2 →
      baselineStopLoss purchase c1 ≤ baselineStopLoss purchase c2) ∧
    (∀ purchase c1 c2 a1 a2 : ℚ, 0 ≤ purchase → 0 ≤ c1 → c1 ≤ c2 →
      max (1/100) (a2/100) ≤ max (1/100) (a1/100) →
      calculate_trailing_stop_loss purchase c1 a1 ≤
        calculate_trailing_stop_loss purchase c2 a2) := by
  constructor
  · intro p c1 c2 h
    simp only [baselineStopLoss]
    rcases le_or_lt c2 (p * (1 + 1/100)) with hc2 | hc2
    · rw [if_neg (not_lt.mpr (le_trans h hc2)), if_neg (not_lt.mpr hc2)]
    · rw [if_pos hc2]
      rcases lt_or_le (p * (1 + 1/100)) c1 with hc1 | hc1
      · rw [if_pos hc1]
        exact max_le_max le_rfl (by nlinarith)
      · rw [if_neg (not_lt.mpr hc1)]
        exact le_max_left _ _
  · intro p c1 c2 a1 a2 hp hc1 hcc hbuf
    simp only [calculate_trailing_stop_loss]
    apply max_le
    · exact le_max_left _ _
    · rcases le_or_lt (max (1/100 : ℚ) (a2/100)) 1 with hb2 | hb2
      · apply le_max_of_le_right
        calc c1 * (1 - max (1/100 : ℚ) (a1/100))
            ≤ c1 * (1 - max (1/100 : ℚ) (a2/100)) := by
              apply mul_le_mul_of_nonneg_left (by linarith) hc1
          _ ≤ c2 * (1 - max (1/100 : ℚ) (a2/100)) := by
              apply mul_le_mul_of_nonneg_right hcc (by linarith)
      · apply le_max_of_le_left
        have hb1 : 1 < max (1/100 : ℚ) (a1/100) := lt_of_lt_of_le hb2 hbuf
        have h1 : c1 * (1 - max (1/100 : ℚ) (a1/100)) ≤ 0 := by nlinarith
        have h2 : 0 ≤ p * (1 - 5/100) := by nlinarith
        linarith

/-- Witness for C1: entry 100, price rising 105 → 110 at unchanged latest
ATR 1 (buffer 1%), in both variants the recomputed stop does not drop. -/
theorem trailing_stop_monotone_witness :
    baselineStopLoss 100 105 ≤ baselineStopLoss 100 110 ∧
    calculate_trailing_stop_loss 100 105 1 ≤
      calculate_trailing_stop_loss 100 110 1 := by
  exact ⟨trailing_stop_monotone.1 100 105 110 (by norm_num),
    trailing_stop_monotone.2 100 105 110 1 1 (by norm_num) (by norm_num)
      (by norm_num) le_rfl⟩

/-- Counterexample to C1 as stated: entry 100, current price unchanged at
110 (non-decreasing) across two cycles, but the latest ATR rising from 1
to 50 (buffer 1% → 50%) makes the advanced stop drop from 108.9 to 95 —
the advanced variant's stop is not monotone under non-decreasing price
alone. -/
theorem trailing_stop_monotone_counterexample :
    calculate_trailing_stop_loss 100 110 50 <
      calculate_trailing_stop_loss 100 110 1 ∧ (110 : ℚ) ≤ 110 := by
  constructor
  · norm_num [calculate_trailing_stop_loss, max_def]
  · exact le_refl 110

/-- **C5 (amended).** The fixed-notional sizing function of main.py
returns `floor(q/step)*step` for `q = amount/price`: an exact integer
multiple of the venue's step size and at most the raw quantity implied by
the policy, for any positive step that is a multiple of `10⁻⁸` (the
`round(·, 8)` is then the identity on the floored value); in the scenario
step 0.001, amount 100, price 333.333 it returns exactly 0.3.  The
fraction-of-balance variant of bot.py performs no step quantisation at
all (see the counterexample). -/
theorem calculate_trade_qty_step_spec (amount price step : ℚ) (k : ℤ)
    (hstep : 0 < step) (hk : step = (k : ℚ) / 10 ^ 8) :
    (∃ m : ℤ, calculate_trade_qty_main amount price step = (m : ℚ) * step) ∧
    calculate_trade_qty_main amount price step ≤ amount / price ∧
    calculate_trade_qty_main 100 (333333/1000) (1/1000) = 3/10 := by
  have key : ∀ x : ℚ, x - pyMod x step = (⌊x / step⌋ : ℚ) * step := by
    intro x
    simp only [pyMod]
    ring
  have hr8 : ∀ m : ℤ, round8 ((m : ℚ) * step) = (m : ℚ) * step := by
    intro m
    have hcast : ((m : ℚ) * step) * 10 ^ 8 = ((m * k : ℤ) : ℚ) := by
      rw [hk]
      push_cast
      ring
    rw [round8, hcast, roundHalfEven_intCast, hk]
    push_cast
    ring
  have hmain : calculate_trade_qty_main amount price step =
      (⌊(amount / price) / step⌋ : ℚ) * step := by
    simp only [calculate_trade_qty_main]
    rw [key, hr8]
  refine ⟨⟨⌊(amount / price) / step⌋, hmain⟩, ?_, ?_⟩
  · rw [hmain]
    have hfl := Int.floor_le ((amount / price) / step)
    calc (⌊(amount / price) / step⌋ : ℚ) * step
        ≤ ((amount / price) / step) * step :=
          mul_le_mul_of_nonneg_right hfl (le_of_lt hstep)
      _ = amount / price := div_mul_cancel₀ _ (ne_of_gt hstep)
  · norm_num [calculate_trade_qty_main, pyMod, round8, roundHalfEven]

/-- Witness for C5: the scenario input (step 0.001 = 100000/10⁸, amount
100, price 333.333) yields an exact step multiple not exceeding the raw
quantity, and equal to 0.3. -/
theorem calculate_trade_qty_step_spec_witness :
    (∃ m : ℤ, calculate_trade_qty_main 100 (333333/1000) (1/1000) =
      (m : ℚ) * (1/1000)) ∧
    calculate_trade_qty_main 100 (333333/1000) (1/1000) ≤
      100 / (333333/1000) ∧
    calculate_trade_qty_main 100 (333333/1000) (1/1000) = 3/10 := by
  exact calculate_trade_qty_step_spec 100 (333333/1000) (1/1000) 100000
    (by norm_num) (by norm_num)

/-- Counterexample to C5 as stated: the fraction-of-balance sizing of
bot.py (balance 10000, fraction 1%, price 333.333) returns
100000/333333 = 0.30000030000…, which is not an integer multiple of the
step size 0.001 — that variant never quantises to the step. -/
theorem calculate_trade_qty_bot_counterexample :
    ¬ ∃ m : ℤ, calculate_trade_qty_bot 10000 (1/100) (333333/1000) =
      (m : ℚ) * (1/1000) := by
  rintro ⟨m, h⟩
  simp only [calculate_trade_qty_bot] at h
  have h2 : (100000000 : ℚ) = (m : ℚ) * 333333 := by
    field_simp at h
    linarith
  have h3 : (100000000 : ℤ) = m * 333333 := by exact_mod_cast h2
  omega

/-- **C7 (amended).** The execution step emits at most one order per
cycle in both variants, and the emitted order is exactly characterised:
a full-quantity sell iff the stop-loss is breached or (signal exit) the
last transition is Exit while Long — the advanced variant additionally
requiring price above the upper Bollinger band for the signal exit — and
a policy-sized buy iff the last transition is Enter while flat — the
advanced variant additionally requiring price below the lower Bollinger
band.  In particular an Enter transition while already Long is a no-op. -/
theorem execute_at_most_one_order (pos : Option ℤ)
    (price qty purchase tradeQty atrLast : ℚ) (bbLower bbUpper : Option ℚ) :
    (execute_trades pos price qty purchase tradeQty).length ≤ 1 ∧
    (execute_advanced_trades pos price qty purchase atrLast bbLower bbUpper
      tradeQty).length ≤ 1 ∧
    (execute_trades pos price qty purchase tradeQty = [Order.sell qty] ↔
      0 < qty ∧ (price ≤ baselineStopLoss purchase price ∨
        pos = some (-1))) ∧
    (execute_trades pos price qty purchase tradeQty = [Order.buy tradeQty] ↔
      pos = some 1 ∧ qty = 0) ∧
    (execute_advanced_trades pos price qty purchase atrLast bbLower bbUpper
        tradeQty = [Order.sell qty] ↔
      0 < qty ∧ (price ≤ calculate_trailing_stop_loss purchase price atrLast ∨
        (pos = some (-1) ∧ nanGt (some price) bbUpper = true))) ∧
    (execute_advanced_trades pos price qty purchase atrLast bbLower bbUpper
        tradeQty = [Order.buy tradeQty] ↔
      pos = some 1 ∧ qty = 0 ∧ nanLt (some price) bbLower = true) := by
  refine ⟨?_, ?_, ?_, ?_, ?_, ?_⟩
  · simp only [execute_trades]
    split_ifs <;> simp
  · simp only [execute_advanced_trades]
    split_ifs <;> simp
  · simp only [execute_trades]
    split_ifs with h1 h2 h3
    · simp [h1.1, h1.2]
    · apply iff_of_false
      · simp
      · rintro ⟨hq, _⟩
        rw [h2.2] at hq
        exact absurd hq (lt_irrefl 0)
    · simp [h3.1, h3.2]
    · apply iff_of_false
      · simp
      · rintro ⟨hq, hst | hpos⟩
        · exact h1 ⟨hq, hst⟩
        · exact h3 ⟨hpos, hq⟩
  · simp only [execute_trades]
    split_ifs with h1 h2 h3
    · apply iff_of_false
      · simp
      · rintro ⟨_, hq0⟩
        rw [hq0] at h1
        exact absurd h1.1 (lt_irrefl 0)
    · simp [h2.1, h2.2]
    · exact iff_of_false (by simp) h2
    · exact iff_of_false (by simp) h2
  · simp only [execute_advanced_trades]
    split_ifs with h1 h2 h3
    · simp [h1.1, h1.2]
    · apply iff_of_false
      · simp
      · rintro ⟨hq, _⟩
        rw [h2.2.1] at hq
        exact absurd hq (lt_irrefl 0)
    · simp [h3.1, h3.2.1, h3.2.2]
    · apply iff_of_false
      · simp
      · rintro ⟨hq, hst | ⟨hpos, hbb⟩⟩
        · exact h1 ⟨hq, hst⟩
        · exact h3 ⟨hpos, hq, hbb⟩
  · simp only [execute_advanced_trades]
    split_ifs with h1 h2 h3
    · apply iff_of_false
      · simp
      · rintro ⟨_, hq0, _⟩
        rw [hq0] at h1
        exact absurd h1.1 (lt_irrefl 0)
    · simp [h2.1, h2.2.1, h2.2.2]
    · exact iff_of_false (by simp) h2
    · exact iff_of_false (by simp) h2

/-- Witness for C7: Exit transition while Long emits the single
full-quantity sell. -/
theorem execute_at_most_one_order_witness :
    execute_trades (some (-1)) 100 2 100 7 = [Order.sell 2] := by
  exact (execute_at_most_one_order (some (-1)) 100 2 100 7 1 none
    none).2.2.1.mpr (by norm_num)

/-- Counterexample to C7 as stated: in the advanced variant, an Enter
transition while flat (price 100, lower band 90, so price is not below
the lower Bollinger band) emits NO order, although the claim's
characterisation says a policy-sized buy is emitted exactly then. -/
theorem execute_advanced_enter_no_buy_counterexample :
    execute_advanced_trades (some 1) 100 0 100 1 (some 90) (some 120) 5 =
      [] ∧
    execute_advanced_trades (some 1) 100 0 100 1 (some 90) (some 120) 5 ≠
      [Order.buy 5] := by
  constructor
  · norm_num [execute_advanced_trades, nanLt, nanGt]
  · norm_num [execute_advanced_trades, nanLt, nanGt]

/-- **C3.** For every candle series shorter than the longest indicator
window (200, for SMA_long) and every value of the RSI oracle, the signal
is 0 at every index in both variants, and no index carries an Enter or
Exit transition — NaN indicator comparisons evaluate to false, and the
embedding is total, so nothing is thrown. -/
theorem short_series_all_hold (closes : List ℚ) (rsi : ℕ → Option ℚ)
    (hshort : closes.length < 200) :
    ∀ i : ℕ, sma_signal closes i = 0 ∧ advanced_signal closes rsi i = 0 ∧
      sma_position closes i ≠ some 1 ∧ sma_position closes i ≠ some (-1) ∧
      advanced_position closes rsi i ≠ some 1 ∧
      advanced_position closes rsi i ≠ some (-1) := by
  have hsma : ∀ i : ℕ, smaAt closes 200 i = none := by
    intro i
    rw [smaAt, if_neg]
    rintro ⟨h200, hlen⟩
    omega
  have hsig : ∀ i : ℕ, sma_signal closes i = 0 := by
    intro i
    rw [sma_signal, if_neg]
    rintro ⟨-, hgt⟩
    rw [hsma i] at hgt
    cases h : smaAt closes 50 i <;> rw [h] at hgt <;> simp [nanGt] at hgt
  have hadv : ∀ i : ℕ, advanced_signal closes rsi i = 0 := by
    intro i
    rw [advanced_signal, if_neg, if_neg]
    · rintro ⟨hlt, -⟩
      rw [hsma i] at hlt
      cases h : smaAt closes 50 i <;> rw [h] at hlt <;> simp [nanLt] at hlt
    · rintro ⟨hgt, -⟩
      rw [hsma i] at hgt
      cases h : smaAt closes 50 i <;> rw [h] at hgt <;> simp [nanGt] at hgt
  intro i
  have hpos1 : sma_position closes i ≠ some 1 ∧
      sma_position closes i ≠ some (-1) := by
    rw [sma_position]
    by_cases h0 : i = 0
    · simp [h0]
    · rw [if_neg h0]
      simp [hsig]
  have hpos2 : advanced_position closes rsi i ≠ some 1 ∧
      advanced_position closes rsi i ≠ some (-1) := by
    rw [advanced_position]
    by_cases h0 : i = 0
    · simp [h0]
    · rw [if_neg h0]
      simp [hadv]
  exact ⟨hsig i, hadv i, hpos1.1, hpos1.2, hpos2.1, hpos2.2⟩

/-- Witness for C3: a 3-candle series (shorter than 200) holds at index 1
in both variants, whatever the RSI oracle says. -/
theorem short_series_all_hold_witness :
    sma_signal [(1 : ℚ), 2, 3] 1 = 0 ∧
    advanced_signal [(1 : ℚ), 2, 3] (fun _ => some 10) 1 = 0 ∧
    sma_position [(1 : ℚ), 2, 3] 1 ≠ some 1 := by
  have h := short_series_all_hold [(1 : ℚ), 2, 3] (fun _ => some 10)
    (by norm_num) 1
  exact ⟨h.1, h.2.1, h.2.2.1⟩

/-- The rolling-window sum as a `Finset.range` sum over `getD` cells. -/
lemma window_sum (l : List ℚ) :
    ∀ (w a : ℕ), a + w ≤ l.length →
      ((l.drop a).take w).sum = ∑ j ∈ Finset.range w, l.getD (a + j) 0 := by
  intro w
  induction w with
  | zero => intro a _; simp
  | succ n ih =>
    intro a h
    have hlt : a + n < l.length := by omega
    rw [List.take_succ, List.sum_append, ih a (by omega),
      Finset.sum_range_succ, List.getElem?_drop,
      List.getElem?_eq_getElem hlt]
    simp [List.getD_eq_getElem l 0 hlt, List.getElem?_eq_getElem hlt]

/-- `smaAt` in `Finset.range` form, on indices where it is defined. -/
lemma smaAt_eq_sum (l : List ℚ) (w i : ℕ) (hw : w ≤ i + 1)
    (hi : i < l.length) :
    smaAt l w i =
      some ((∑ j ∈ Finset.range w, l.getD (i + 1 - w + j) 0) / w) := by
  rw [smaAt, if_pos ⟨hw, hi⟩, window_sum l w (i + 1 - w) (by omega)]

/-- Strict monotonicity of the series transfers to `getD` cells. -/
lemma getD_lt_getD (l : List ℚ) (hmono : l.Pairwise (· < ·)) {a b : ℕ}
    (hab : a < b) (hb : b < l.length) : l.getD a 0 < l.getD b 0 := by
  have ha : a < l.length := lt_trans hab hb
  rw [List.getD_eq_getElem l 0 ha, List.getD_eq_getElem l 0 hb]
  exact List.pairwise_iff_getElem.mp hmono a b ha hb hab

/-- Weak version of `getD_lt_getD`. -/
lemma getD_le_getD (l : List ℚ) (hmono : l.Pairwise (· < ·)) {a b : ℕ}
    (hab : a ≤ b) (hb : b < l.length) : l.getD a 0 ≤ l.getD b 0 := by
  rcases Nat.eq_or_lt_of_le hab with heq | hlt
  · rw [heq]
  · exact le_of_lt (getD_lt_getD l hmono hlt hb)

set_option maxRecDepth 4000 in
/-- On a strictly increasing series, from index 199 on, the 50-SMA is
strictly above the 200-SMA: the tail window's mean beats the long
window's mean because every cell of the older 150 rows is below every
cell of the newest 50 rows. -/
lemma sma_short_gt_long (l : List ℚ) (hmono : l.Pairwise (· < ·))
    (i : ℕ) (hi : 199 ≤ i) (hil : i < l.length) :
    nanGt (smaAt l 50 i) (smaAt l 200 i) = true := by
  rw [smaAt_eq_sum l 50 i (by omega) hil, smaAt_eq_sum l 200 i (by omega) hil]
  have hsplit : (∑ j ∈ Finset.range 200, l.getD (i + 1 - 200 + j) 0) =
      (∑ j ∈ Finset.range 150, l.getD (i + 1 - 200 + j) 0) +
      (∑ j ∈ Finset.range 50, l.getD (i + 1 - 50 + j) 0) := by
    have h15050 : (200 : ℕ) = 150 + 50 := by norm_num
    rw [h15050, Finset.sum_range_add]
    congr 1
    apply Finset.sum_congr rfl
    intro j _
    congr 1
    omega
  have hc150 : ((150 : ℕ) : ℚ) = 150 := by norm_num
  have hc50 : ((50 : ℕ) : ℚ) = 50 := by norm_num
  have hc200 : ((200 : ℕ) : ℚ) = 200 := by norm_num
  have hb1 : (∑ j ∈ Finset.range 150, l.getD (i + 1 - 200 + j) 0) ≤
      (150 : ℚ) * l.getD (i - 50) 0 := by
    have hs := Finset.sum_le_card_nsmul (Finset.range 150)
      (fun j => l.getD (i + 1 - 200 + j) 0) (l.getD (i - 50) 0)
      (fun j hj => getD_le_getD l hmono
        (by rw [Finset.mem_range] at hj; omega) (by omega))
    rw [Finset.card_range, nsmul_eq_mul, hc150] at hs
    exact hs
  have hb2 : (50 : ℚ) * l.getD (i - 49) 0 ≤
      ∑ j ∈ Finset.range 50, l.getD (i + 1 - 50 + j) 0 := by
    have hs := Finset.card_nsmul_le_sum (Finset.range 50)
      (fun j => l.getD (i + 1 - 50 + j) 0) (l.getD (i - 49) 0)
      (fun j hj => getD_le_getD l hmono (by omega)
        (by rw [Finset.mem_range] at hj; omega))
    rw [Finset.card_range, nsmul_eq_mul, hc50] at hs
    exact hs
  have hstrict : l.getD (i - 50) 0 < l.getD (i - 49) 0 :=
    getD_lt_getD l hmono (by omega) (by omega)
  simp only [nanGt, decide_eq_true_eq]
  rw [div_lt_div_iff₀ (by rw [hc200]; norm_num) (by rw [hc50]; norm_num),
    hsplit, hc50, hc200]
  linarith

/-- On a strictly increasing series of length ≥ 200, the baseline signal
is 0 before index 199 and 1 from index 199 on. -/
lemma sma_signal_char (l : List ℚ) (hmono : l.Pairwise (· < ·))
    {i : ℕ} (hil : i < l.length) :
    sma_signal l i = if 199 ≤ i then 1 else 0 := by
  by_cases h199 : 199 ≤ i
  · rw [if_pos h199, sma_signal,
      if_pos ⟨by omega, sma_short_gt_long l hmono i h199 hil⟩]
  · rw [if_neg h199, sma_signal, if_neg]
    rintro ⟨-, hgt⟩
    have hnone : smaAt l 200 i = none := by
      rw [smaAt, if_neg]
      rintro ⟨h2, -⟩
      omega
    rw [hnone] at hgt
    cases h : smaAt l 50 i <;> rw [h] at hgt <;> simp [nanGt] at hgt

/-- On a strictly increasing series of length ≥ 200, the transition
column is NaN at 0, Enter (+1) exactly at index 199, and 0 elsewhere. -/
lemma sma_position_char (l : List ℚ) (hmono : l.Pairwise (· < ·))
    {i : ℕ} (hil : i < l.length) :
    sma_position l i =
      if i = 0 then none else if i = 199 then some 1 else some 0 := by
  rw [sma_position]
  by_cases h0 : i = 0
  · simp [h0]
  · rw [if_neg h0, if_neg h0]
    have hi1 : i - 1 < l.length := by omega
    rw [sma_signal_char l hmono hil, sma_signal_char l hmono hi1]
    by_cases h199 : i = 199
    · rw [if_pos h199]
      subst h199
      norm_num
    · rw [if_neg h199]
      by_cases hge : 199 ≤ i
      · have hge1 : 199 ≤ i - 1 := by omega
        rw [if_pos hge, if_pos hge1]
        norm_num
      · have hlt1 : ¬ 199 ≤ i - 1 := by omega
        rw [if_neg hge, if_neg hlt1]
        norm_num

/-- If no row carries an Exit transition, the simulated `balance`
variable is never written, so it survives the whole loop. -/
lemma backtest_balance_invariant (closes : List ℚ) :
    ∀ (is : List ℕ) (st : ℚ × ℚ),
      (∀ i ∈ is, sma_position closes i ≠ some (-1)) →
      (is.foldl (backtestStep closes) st).1 = st.1 := by
  intro is
  induction is with
  | nil => intro st _; rfl
  | cons j js ih =>
    intro st h
    rw [List.foldl_cons, ih _ (fun i hi => h i (List.mem_cons_of_mem j hi))]
    rw [backtestStep]
    split_ifs with h1 h2
    · rfl
    · exact absurd h2.1 (h j (List.mem_cons_self j js))
    · rfl

/-- A series whose transition column never shows Exit back-tests to
profit exactly 0: the position opened by any Enter is never closed and
the reported profit only counts the (untouched) cash balance. -/
lemma backtest_no_exit_profit_zero (closes : List ℚ)
    (h : ∀ i, i < closes.length → sma_position closes i ≠ some (-1)) :
    backtest_sma_strategy closes = 0 := by
  simp only [backtest_sma_strategy]
  rw [backtest_balance_invariant closes (List.range closes.length) (10000, 0)
    (fun i hi => h i (List.mem_range.mp hi))]
  norm_num

/-- The scenario series has 250 rows. -/
lemma linSeries_length : linSeries.length = 250 := by
  rw [linSeries, List.length_map, List.length_range]

/-- The scenario series is strictly increasing. -/
lemma linSeries_mono : linSeries.Pairwise (· < ·) := by
  rw [List.pairwise_iff_getElem]
  intro i j hi hj hij
  simp only [linSeries, List.getElem_map, List.getElem_range]
  have hij' : (i : ℚ) < (j : ℚ) := by exact_mod_cast hij
  linarith [mul_lt_mul_of_pos_right hij' (show (0:ℚ) < 250/249 by norm_num)]

/-- No row of the scenario series carries an Exit transition. -/
lemma linSeries_no_exit :
    ∀ i, i < linSeries.length → sma_position linSeries i ≠ some (-1) := by
  intro i hil
  rw [sma_position_char linSeries linSeries_mono hil]
  by_cases h0 : i = 0
  · simp [h0]
  · rw [if_neg h0]
    by_cases h199 : i = 199
    · rw [if_pos h199]; simp
    · rw [if_neg h199]; simp

/-- The backtest on the scenario series reports profit exactly 0. -/
lemma linSeries_backtest_zero : backtest_sma_strategy linSeries = 0 :=
  backtest_no_exit_profit_zero linSeries linSeries_no_exit

/-- **C8.** For every strictly increasing close series with at least 200
rows (so that SMA_short is eventually above SMA_long), the baseline
signal engine emits exactly one Enter transition — at index 199, the
first index where both SMAs exist and the crossover condition holds —
and no Exit transition; feeding the Enter transition to the execution
step while flat emits the single buy (Flat→Long), and a no-transition
row while flat emits nothing, so the position moves Flat→Long exactly
once. -/
theorem rising_series_single_enter (closes : List ℚ)
    (hmono : closes.Pairwise (· < ·)) (hlen : 200 ≤ closes.length) :
    sma_position closes 199 = some 1 ∧
    (∀ i, i < closes.length → i ≠ 199 → sma_position closes i ≠ some 1) ∧
    (∀ i, i < closes.length → sma_position closes i ≠ some (-1)) ∧
    (∀ price purchase tradeQty : ℚ,
      execute_trades (some 1) price 0 purchase tradeQty =
        [Order.buy tradeQty]) ∧
    (∀ price purchase tradeQty : ℚ,
      execute_trades (some 0) price 0 purchase tradeQty = []) := by
  refine ⟨?_, ?_, ?_, ?_, ?_⟩
  · rw [sma_position_char closes hmono (show 199 < closes.length by omega)]
    norm_num
  · intro i hil hne
    rw [sma_position_char closes hmono hil]
    by_cases h0 : i = 0
    · simp [h0]
    · rw [if_neg h0, if_neg hne]
      simp
  · intro i hil
    rw [sma_position_char closes hmono hil]
    by_cases h0 : i = 0
    · simp [h0]
    · rw [if_neg h0]
      by_cases h199 : i = 199
      · rw [if_pos h199]; simp
      · rw [if_neg h199]; simp
  · intro price purchase tradeQty
    simp [execute_trades]
  · intro price purchase tradeQty
    simp [execute_trades]

/-- Witness for C8 on the concrete 250-row strictly increasing series:
Enter exactly at index 199, none elsewhere, no Exit, and the Enter-while-
flat cycle buys. -/
theorem rising_series_single_enter_witness :
    sma_position linSeries 199 = some 1 ∧
    sma_position linSeries 5 ≠ some 1 ∧
    sma_position linSeries 200 ≠ some (-1) ∧
    execute_trades (some 1) 90 0 0 7 = [Order.buy 7] := by
  have h := rising_series_single_enter linSeries linSeries_mono
    (by rw [linSeries_length]; norm_num)
  exact ⟨h.1, h.2.1 5 (by rw [linSeries_length]; norm_num) (by norm_num),
    h.2.2.1 200 (by rw [linSeries_length]; norm_num), h.2.2.2.1 90 0 7⟩

/-- **C4 (amended).** On the 250-row series rising linearly from 100 to
350 the baseline strategy produces its single Enter at index 199 — the
first index at which SMA(50) and SMA(200) are both defined and
SMA_short > SMA_long — and the backtest simulator on it with initial
balance 10000 reports profit exactly 0 (not > 0): the Enter is never
followed by an Exit, the buy does not debit the simulated balance, and
the reported profit only measures the balance variable. -/
theorem linear_series_enter_and_backtest :
    sma_position linSeries 199 = some 1 ∧
    (∀ i, i < 250 → i ≠ 199 → sma_position linSeries i ≠ some 1) ∧
    backtest_sma_strategy linSeries = 0 := by
  refine ⟨?_, ?_, linSeries_backtest_zero⟩
  · rw [sma_position_char linSeries linSeries_mono
      (show 199 < linSeries.length by rw [linSeries_length]; norm_num)]
    norm_num
  · intro i hil hne
    rw [sma_position_char linSeries linSeries_mono
      (show i < linSeries.length by rw [linSeries_length]; exact hil)]
    by_cases h0 : i = 0
    · simp [h0]
    · rw [if_neg h0, if_neg hne]
      simp

/-- Witness for C4: instances of the quantified conjunct at index 5. -/
theorem linear_series_enter_and_backtest_witness :
    sma_position linSeries 199 = some 1 ∧
    sma_position linSeries 5 ≠ some 1 ∧
    backtest_sma_strategy linSeries = 0 := by
  have h := linear_series_enter_and_backtest
  exact ⟨h.1, h.2.1 5 (by norm_num) (by norm_num), h.2.2⟩

/-- Counterexample to C4 as stated: the backtest on the linearly rising
scenario series reports profit 0, which is not strictly positive. -/
theorem linear_series_profit_not_positive :
    ¬ (0 < backtest_sma_strategy linSeries) := by
  rw [linSeries_backtest_zero]
  exact lt_irrefl 0
